import Mathlib

/-
Verification of the porthouse OpenMCT connection/RPC/subscription core.

The definitions below are a shallow embedding of the JavaScript sources:
 * `src/unnamed/part_009` — the `Connector` class (WebSocket transport,
   RPC correlation table, connector-level subscription map);
 * `src/mcs/openmct/connector.js` — the older `Connector` variant;
 * `src/porthouse/mcs/openmct/src/plugins/housekeeping/HousekeepingPlugin.js`
   — the housekeeping telemetry provider (subscription dedup layer and the
   request coalescer);
 * `src/porthouse/mcs/openmct/src/plugins/measurements/MeasurementsPlugin.js`
   — the measurements telemetry provider (its request coalescer).

JavaScript objects used as dictionaries are embedded as association lists
with unique keys; JS promises are embedded as handles (natural numbers)
settled at most once into an explicit outcome log; the event loop is
embedded as a step function over explicit event traces (one event per
task; microtask cleanup such as a promise `.finally` is folded into the
step that settles the promise, which is faithful because microtasks drain
before the next task runs).
-/

namespace Porthouse

/-! ## Association lists with JavaScript object semantics

`alookup` is `obj[k]` (first match), `ainsert` is `obj[k] = v` (replace in
place, else append — JS string-keyed objects preserve insertion order),
`aerase` is `delete obj[k]`. -/

def alookup {κ α : Type} [DecidableEq κ] (k : κ) : List (κ × α) → Option α
  | [] => none
  | e :: rest => if e.1 = k then some e.2 else alookup k rest

def ainsert {κ α : Type} [DecidableEq κ] (k : κ) (v : α) : List (κ × α) → List (κ × α)
  | [] => [(k, v)]
  | e :: rest => if e.1 = k then (e.1, v) :: rest else e :: ainsert k v rest

def aerase {κ α : Type} [DecidableEq κ] (k : κ) : List (κ × α) → List (κ × α)
  | [] => []
  | e :: rest => if e.1 = k then rest else e :: aerase k rest

theorem alookup_ainsert_self {κ α : Type} [DecidableEq κ] (k : κ) (v : α)
    (l : List (κ × α)) : alookup k (ainsert k v l) = some v := by
  induction l with
  | nil => simp [ainsert, alookup]
  | cons e rest ih =>
    by_cases h : e.1 = k
    · simp [ainsert, alookup, h]
    · simp [ainsert, alookup, h, ih]

theorem alookup_ainsert_of_ne {κ α : Type} [DecidableEq κ] {j k : κ} (v : α)
    (l : List (κ × α)) (h : j ≠ k) : alookup j (ainsert k v l) = alookup j l := by
  have h2 : k ≠ j := Ne.symm h
  induction l with
  | nil => simp [ainsert, alookup, h2]
  | cons e rest ih =>
    by_cases he : e.1 = k
    · simp [ainsert, alookup, he, h2]
    · by_cases hj : e.1 = j
      · simp [ainsert, alookup, he, hj, h]
      · simp [ainsert, alookup, he, hj, ih]

theorem ainsert_append_of_none {κ α : Type} [DecidableEq κ] {k : κ} (v : α)
    {l : List (κ × α)} (h : alookup k l = none) : ainsert k v l = l ++ [(k, v)] := by
  induction l with
  | nil => simp [ainsert]
  | cons e rest ih =>
    by_cases he : e.1 = k
    · simp [alookup, he] at h
    · simp [alookup, he] at h
      simp [ainsert, he, ih h]

theorem aerase_append_of_none {κ α : Type} [DecidableEq κ] {k : κ} (v : α)
    {l : List (κ × α)} (h : alookup k l = none) : aerase k (l ++ [(k, v)]) = l := by
  induction l with
  | nil => simp [aerase]
  | cons e rest ih =>
    by_cases he : e.1 = k
    · simp [alookup, he] at h
    · simp [alookup, he] at h
      simp [aerase, he, ih h]

theorem ainsert_ne_nil {κ α : Type} [DecidableEq κ] (k : κ) (v : α)
    (l : List (κ × α)) : ainsert k v l ≠ [] := by
  cases l with
  | nil => simp [ainsert]
  | cons e rest =>
    by_cases he : e.1 = k <;> simp [ainsert, he]

/-! ## RPC correlation table (`Connector.remoteCall` and the `message`
handler of `src/unnamed/part_009`)

`remoteCall` allocates `id = this.rpc_id++` and stores
`this.rpc_calls[id] = { resolve, reject, timeout: setTimeout(reject, 500) }`;
the promise's `.finally` deletes `this.rpc_calls[id]` as soon as it
settles.  The `message` handler resolves (plain response) or rejects
(error frame) only when `message.id in this.rpc_calls`, clearing the
deadline timer; the deadline timer rejects with no argument
(`setTimeout(reject, 500)` passes `undefined`).  A settled promise cannot
be settled again, and its table entry is gone, so each branch below both
settles and removes in one step. -/

/-- How a pending RPC promise was settled.  `rejectedTimeout` is the
deadline path, which rejects with `undefined`; `rejectedError` carries the
string built by the error-frame branch. -/
inductive Outcome
  | resolved (payload : Nat)
  | rejectedError (msg : String)
  | rejectedTimeout
deriving DecidableEq, Repr

/-- State of the correlation table: `nextId` is `this.rpc_id`, `pending`
the keys of `this.rpc_calls`, `outcomes` the settlement log (newest
first). -/
structure RpcState where
  nextId : Nat
  pending : List Nat
  outcomes : List (Nat × Outcome)
deriving DecidableEq, Repr

def rpcInit : RpcState := ⟨0, [], []⟩

/-- One event-loop task touching the correlation table: a `remoteCall`
invocation, an inbound response frame, an inbound error frame, or a
deadline timer firing. -/
inductive RpcEvent
  | call
  | response (id : Nat) (payload : Nat)
  | errorFrame (id : Nat) (msg : String)
  | timeoutFire (id : Nat)
deriving DecidableEq, Repr

def rpcStep (s : RpcState) : RpcEvent → RpcState
  | .call =>
      { s with nextId := s.nextId + 1, pending := s.nextId :: s.pending }
  | .response i v =>
      if i ∈ s.pending then
        { s with pending := s.pending.filter (fun j => j ≠ i),
                 outcomes := (i, .resolved v) :: s.outcomes }
      else s
  | .errorFrame i m =>
      if i ∈ s.pending then
        { s with pending := s.pending.filter (fun j => j ≠ i),
                 outcomes := (i, .rejectedError ("WebSocket error: " ++ m)) :: s.outcomes }
      else s
  | .timeoutFire i =>
      if i ∈ s.pending then
        { s with pending := s.pending.filter (fun j => j ≠ i),
                 outcomes := (i, .rejectedTimeout) :: s.outcomes }
      else s

def rpcRun (s : RpcState) (es : List RpcEvent) : RpcState := es.foldl rpcStep s

/-- Number of settlements recorded for call id `i`. -/
def settleCount (i : Nat) (s : RpcState) : Nat := (s.outcomes.map Prod.fst).count i

/-- Invariant of the correlation table: pending ids are distinct, settled
ids are distinct, no id is both pending and settled, and all ids were
allocated below the counter. -/
def RpcInv (s : RpcState) : Prop :=
  s.pending.Nodup ∧ (s.outcomes.map Prod.fst).Nodup ∧
  (∀ i, i ∈ s.pending → i ∉ s.outcomes.map Prod.fst) ∧
  (∀ i, i ∈ s.pending → i < s.nextId) ∧
  (∀ i, i ∈ s.outcomes.map Prod.fst → i < s.nextId)

theorem rpcStep_inv {s : RpcState} (h : RpcInv s) (e : RpcEvent) : RpcInv (rpcStep s e) := by
  obtain ⟨hp, ho, hd, hpb, hob⟩ := h
  cases e with
  | call =>
    refine ⟨?_, ho, ?_, ?_, ?_⟩
    · exact List.Nodup.cons (fun hm => Nat.lt_irrefl _ (hpb _ hm)) hp
    · intro i hi
      rcases List.mem_cons.mp hi with rfl | hi
      · exact fun hc => Nat.lt_irrefl _ (hob _ hc)
      · exact hd i hi
    · intro i hi
      rcases List.mem_cons.mp hi with rfl | hi
      · exact Nat.lt_succ_self _
      · exact Nat.lt_succ_of_lt (hpb i hi)
    · exact fun i hi => Nat.lt_succ_of_lt (hob i hi)
  | response i v =>
    by_cases hm : i ∈ s.pending
    · simp only [rpcStep, if_pos hm]
      refine ⟨List.Nodup.filter _ hp, ?_, ?_, ?_, ?_⟩
      · exact List.Nodup.cons (hd i hm) ho
      · intro j hj
        have hj2 := List.mem_filter.mp hj
        have hne : j ≠ i := by simpa using hj2.2
        simp only [List.map_cons, List.mem_cons]
        push_neg
        exact ⟨hne, hd j hj2.1⟩
      · intro j hj
        exact hpb j (List.mem_filter.mp hj).1
      · intro j hj
        simp only [List.map_cons, List.mem_cons] at hj
        rcases hj with rfl | hj
        · exact hpb j hm
        · exact hob j hj
    · simpa [rpcStep, if_neg hm] using ⟨hp, ho, hd, hpb, hob⟩
  | errorFrame i m =>
    by_cases hm : i ∈ s.pending
    · simp only [rpcStep, if_pos hm]
      refine ⟨List.Nodup.filter _ hp, ?_, ?_, ?_, ?_⟩
      · exact List.Nodup.cons (hd i hm) ho
      · intro j hj
        have hj2 := List.mem_filter.mp hj
        have hne : j ≠ i := by simpa using hj2.2
        simp only [List.map_cons, List.mem_cons]
        push_neg
        exact ⟨hne, hd j hj2.1⟩
      · intro j hj
        exact hpb j (List.mem_filter.mp hj).1
      · intro j hj
        simp only [List.map_cons, List.mem_cons] at hj
        rcases hj with rfl | hj
        · exact hpb j hm
        · exact hob j hj
    · simpa [rpcStep, if_neg hm] using ⟨hp, ho, hd, hpb, hob⟩
  | timeoutFire i =>
    by_cases hm : i ∈ s.pending
    · simp only [rpcStep, if_pos hm]
      refine ⟨List.Nodup.filter _ hp, ?_, ?_, ?_, ?_⟩
      · exact List.Nodup.cons (hd i hm) ho
      · intro j hj
        have hj2 := List.mem_filter.mp hj
        have hne : j ≠ i := by simpa using hj2.2
        simp only [List.map_cons, List.mem_cons]
        push_neg
        exact ⟨hne, hd j hj2.1⟩
      · intro j hj
        exact hpb j (List.mem_filter.mp hj).1
      · intro j hj
        simp only [List.map_cons, List.mem_cons] at hj
        rcases hj with rfl | hj
        · exact hpb j hm
        · exact hob j hj
    · simpa [rpcStep, if_neg hm] using ⟨hp, ho, hd, hpb, hob⟩

theorem rpcRun_inv {s : RpcState} (h : RpcInv s) (es : List RpcEvent) :
    RpcInv (rpcRun s es) := by
  induction es generalizing s with
  | nil => exact h
  | cons e rest ih => exact ih (rpcStep_inv h e)

theorem rpcInit_inv : RpcInv rpcInit := by
  refine ⟨List.nodup_nil, List.nodup_nil, ?_, ?_, ?_⟩ <;> simp [rpcInit]

theorem rpcRun_append (s : RpcState) (es fs : List RpcEvent) :
    rpcRun s (es ++ fs) = rpcRun (rpcRun s es) fs := by
  simp [rpcRun, List.foldl_append]

theorem rpcStep_of_not_pending_response {s : RpcState} {i : Nat} (h : i ∉ s.pending)
    (v : Nat) : rpcStep s (RpcEvent.response i v) = s := by
  simp [rpcStep, if_neg h]

theorem rpcStep_of_not_pending_error {s : RpcState} {i : Nat} (h : i ∉ s.pending)
    (m : String) : rpcStep s (RpcEvent.errorFrame i m) = s := by
  simp [rpcStep, if_neg h]

/-- C2: the correlation table settles every pending call at most once —
over any trace of `remoteCall` invocations, inbound response/error frames
and deadline expiries, each call id is recorded settled at most once; a
call that is still pending when its deadline fires is rejected with the
timeout kind and removed, and a response or error frame arriving for that
id afterwards is ignored (the state does not change — no
double-resolution). -/
theorem c2_correlation_settles_at_most_once (es : List RpcEvent) (i v : Nat) (m : String) :
    settleCount i (rpcRun rpcInit es) ≤ 1 ∧
    (i ∈ (rpcRun rpcInit es).pending →
      alookup i (rpcRun rpcInit (es ++ [RpcEvent.timeoutFire i])).outcomes =
        some Outcome.rejectedTimeout ∧
      i ∉ (rpcRun rpcInit (es ++ [RpcEvent.timeoutFire i])).pending ∧
      rpcRun rpcInit (es ++ [RpcEvent.timeoutFire i, RpcEvent.response i v]) =
        rpcRun rpcInit (es ++ [RpcEvent.timeoutFire i]) ∧
      rpcRun rpcInit (es ++ [RpcEvent.timeoutFire i, RpcEvent.errorFrame i m]) =
        rpcRun rpcInit (es ++ [RpcEvent.timeoutFire i])) := by
  have hinv := rpcRun_inv rpcInit_inv es
  constructor
  · exact List.nodup_iff_count_le_one.mp hinv.2.1 i
  · intro hp
    have h1 : rpcRun rpcInit (es ++ [RpcEvent.timeoutFire i]) =
        rpcStep (rpcRun rpcInit es) (RpcEvent.timeoutFire i) := by
      rw [rpcRun_append]; rfl
    have hstep : rpcStep (rpcRun rpcInit es) (RpcEvent.timeoutFire i) =
        { rpcRun rpcInit es with
          pending := (rpcRun rpcInit es).pending.filter (fun j => j ≠ i),
          outcomes := (i, Outcome.rejectedTimeout) :: (rpcRun rpcInit es).outcomes } := by
      simp [rpcStep, if_pos hp]
    have hnot : i ∉ (rpcRun rpcInit (es ++ [RpcEvent.timeoutFire i])).pending := by
      rw [h1, hstep]
      simp [List.mem_filter]
    refine ⟨?_, hnot, ?_, ?_⟩
    · rw [h1, hstep]
      simp [alookup]
    · have h2 : rpcRun rpcInit (es ++ [RpcEvent.timeoutFire i, RpcEvent.response i v]) =
          rpcStep (rpcRun rpcInit (es ++ [RpcEvent.timeoutFire i])) (RpcEvent.response i v) := by
        have : es ++ [RpcEvent.timeoutFire i, RpcEvent.response i v] =
            (es ++ [RpcEvent.timeoutFire i]) ++ [RpcEvent.response i v] := by
          simp
        rw [this, rpcRun_append]; rfl
      rw [h2, rpcStep_of_not_pending_response hnot]
    · have h2 : rpcRun rpcInit (es ++ [RpcEvent.timeoutFire i, RpcEvent.errorFrame i m]) =
          rpcStep (rpcRun rpcInit (es ++ [RpcEvent.timeoutFire i])) (RpcEvent.errorFrame i m) := by
        have : es ++ [RpcEvent.timeoutFire i, RpcEvent.errorFrame i m] =
            (es ++ [RpcEvent.timeoutFire i]) ++ [RpcEvent.errorFrame i m] := by
          simp
        rw [this, rpcRun_append]; rfl
      rw [h2, rpcStep_of_not_pending_error hnot]

/-- Witness for C2 at a concrete trace: one `remoteCall` allocates id 0,
its deadline fires, and the late response is ignored. -/
theorem c2_correlation_settles_at_most_once_witness :
    0 ∈ (rpcRun rpcInit [RpcEvent.call]).pending ∧
    alookup 0 (rpcRun rpcInit ([RpcEvent.call] ++ [RpcEvent.timeoutFire 0])).outcomes =
      some Outcome.rejectedTimeout :=
  ⟨by decide, ((c2_correlation_settles_at_most_once [RpcEvent.call] 0 7 "x").2 (by decide)).1⟩

/-! ## Connector state (`src/unnamed/part_009`)

`this.socket` (null after close, otherwise a handle whose Boolean is
`readyState == OPEN`), `this.rpc_id`, `this.pending` (stringified frames
queued while disconnected) and `this.subscriptions`
(`service -> subsystem -> callback`; callbacks are embedded as numeric
identities). -/

structure ConnState where
  socket : Option Bool
  rpcId : Nat
  queuedFrames : List String
  subscriptions : List (String × List (String × Nat))
deriving DecidableEq, Repr

def connInit : ConnState := ⟨some true, 0, [], []⟩

/-- `close` handler of `src/unnamed/part_009`: `this.socket = null` and
nothing else (the reconnect block is commented out; `this.subscriptions`
and `this.pending` are untouched). -/
def onClose (s : ConnState) : ConnState := { s with socket := none }

/-- `close` handler of the older variant `src/mcs/openmct/connector.js`:
`this.subscriptions = { }` (the `ReconnectingWebSocket` handle itself is
kept). -/
def onCloseOld (s : ConnState) : ConnState := { s with subscriptions := [] }

/-- An inbound WebSocket message after the `JSON.parse` attempt of the
`message` handler: `malformed` stands for data on which `JSON.parse`
throws (the handler catches and returns); the other constructors are the
three structured shapes the handler distinguishes. -/
inductive InMsg
  | malformed
  | push (service subsystem : String) (payload : Nat)
  | errorFrame (id : Nat) (msg : String)
  | response (id : Nat) (payload : Nat)
deriving DecidableEq, Repr

/-- The `message` handler of `src/unnamed/part_009`, restricted to its
control flow and subscription dispatch (the RPC settlement bookkeeping of
the `error`/`id` branches is the `RpcState` model above; here they are
no-crash no-delivery steps).  Returns `none` when the handler throws:
for a push, `this.subscriptions[subscription.service]` is read without a
guard, so a service with no registry entry raises a `TypeError`; a known
service whose bucket lacks the subsystem yields `callback === undefined`,
which the handler silently drops.  The result list holds the callback
invocations `(callback, payload)` performed. -/
def handleMessage (s : ConnState) : InMsg → Option (ConnState × List (Nat × Nat))
  | .malformed => some (s, [])
  | .push svc sub payload =>
      match alookup svc s.subscriptions with
      | none => none
      | some bucket =>
          match alookup sub bucket with
          | none => some (s, [])
          | some cb => some (s, [(cb, payload)])
  | .errorFrame _ _ => some (s, [])
  | .response _ _ => some (s, [])

/-- `Connector.subscribe` of `src/unnamed/part_009` for a single
(non-array) key: creates the service bucket when missing and stores
`this.subscriptions[service][key] = callback`, replacing any previous
callback for that key.  (The unconditional subscribe frame it also sends
via `remoteCall` is counted in the registry model below.) -/
def connSubscribe (s : ConnState) (service key : String) (cb : Nat) : ConnState :=
  let bucket := (alookup service s.subscriptions).getD []
  { s with subscriptions := ainsert service (ainsert key cb bucket) s.subscriptions }

/-- `Connector.unsubscribe` of `src/unnamed/part_009` for a single key:
`delete this.subscriptions[service][fields]` — the service bucket itself
is never removed (an empty bucket stays behind).  `none` when the service
bucket is missing (the `delete` on `undefined` would throw). -/
def connUnsubscribe (s : ConnState) (service key : String) : Option ConnState :=
  match alookup service s.subscriptions with
  | none => none
  | some bucket =>
      some { s with subscriptions := ainsert service (aerase key bucket) s.subscriptions }

/-! ## The `open` handler of `src/unnamed/part_009` (C4)

On `open`, the handler first re-sends every frame in `this.pending`
verbatim and clears the queue, and only then iterates
`Object.keys(this.subscriptions)`, issuing one
`remoteCall(service, "subscribe", fields)` per service with that
service's whole key list (`remoteCall` allocates consecutive ids and
sends immediately since the socket is open; its correlation entries are
the `RpcState` model). -/

/-- A frame sent on the wire by the `open` handler: either a queued
stringified frame re-sent verbatim, or an RPC frame built by
`remoteCall`. -/
inductive OutFrame
  | raw (payload : String)
  | rpc (service method : String) (params : List String) (id : Nat)
deriving DecidableEq, Repr

def isSubscribeFrame : OutFrame → Bool
  | .rpc _ m _ _ => m = "subscribe"
  | .raw _ => false

/-- The re-subscription frames the `open` handler issues: one per service
in the registry, carrying all of that service's keys. -/
def resubFrames (s : ConnState) : List OutFrame :=
  s.subscriptions.enum.map
    (fun e => OutFrame.rpc e.2.1 "subscribe" (e.2.2.map Prod.fst) (s.rpcId + e.1))

/-- The `open` handler: flush `this.pending` in order, clear it, then
re-subscribe per service. -/
def onOpen (s : ConnState) : ConnState × List OutFrame :=
  ({ s with queuedFrames := [], rpcId := s.rpcId + s.subscriptions.length },
   s.queuedFrames.map OutFrame.raw ++ resubFrames s)

def countSubFrames (l : List OutFrame) : Nat := (l.filter isSubscribeFrame).length

/-- Number of live `(service, key)` subscription entries. -/
def liveEntries (s : ConnState) : Nat := (s.subscriptions.map (fun e => e.2.length)).sum

theorem filter_isSubscribeFrame_raw (qs : List String) :
    (qs.map OutFrame.raw).filter isSubscribeFrame = [] := by
  induction qs with
  | nil => rfl
  | cons q rest ih => simp [isSubscribeFrame, ih]

theorem filter_isSubscribeFrame_resub (s : ConnState) :
    (resubFrames s).filter isSubscribeFrame = resubFrames s := by
  unfold resubFrames
  induction s.subscriptions.enum with
  | nil => rfl
  | cons e rest ih => simp [isSubscribeFrame, ih]

/-- Concrete registry state used for the C4 counterexample: one queued
request frame and one service with two live subscription keys. -/
def c4cex : ConnState :=
  ⟨some true, 0, ["reqframe"], [("housekeeping", [("fs1.eps", 0), ("fs1.obc", 1)])]⟩

/-- C4 counterexample: with two live `(service, key)` entries under one
service and one queued request frame, the `open` handler does not send
one subscribe frame per entry (it sends a single grouped frame, 1 ≠ 2),
and the frames it does send do not precede the queued traffic (the queued
frame is flushed first). -/
theorem c4_counterexample :
    ¬ (countSubFrames (onOpen c4cex).2 = liveEntries c4cex ∧
       ((onOpen c4cex).2.take (liveEntries c4cex)).all isSubscribeFrame = true) := by
  decide

/-- C4 amended: on `open` the handler first re-sends the frames queued
while disconnected, in order, and then sends exactly one subscribe frame
per service in the registry, each carrying all of that service's keys;
the queue is cleared. -/
theorem c4_open_flushes_queue_then_resubscribes_per_service (s : ConnState) :
    (onOpen s).2.take s.queuedFrames.length = s.queuedFrames.map OutFrame.raw ∧
    (onOpen s).2.drop s.queuedFrames.length = resubFrames s ∧
    countSubFrames (onOpen s).2 = s.subscriptions.length ∧
    (onOpen s).1.queuedFrames = [] := by
  have hlen : (s.queuedFrames.map OutFrame.raw).length = s.queuedFrames.length :=
    List.length_map _ _
  refine ⟨?_, ?_, ?_, rfl⟩
  · show (s.queuedFrames.map OutFrame.raw ++ resubFrames s).take s.queuedFrames.length =
      s.queuedFrames.map OutFrame.raw
    rw [← hlen, List.take_left]
  · show (s.queuedFrames.map OutFrame.raw ++ resubFrames s).drop s.queuedFrames.length =
      resubFrames s
    rw [← hlen, List.drop_left]
  · show countSubFrames (s.queuedFrames.map OutFrame.raw ++ resubFrames s) =
      s.subscriptions.length
    unfold countSubFrames
    rw [List.filter_append, filter_isSubscribeFrame_raw, filter_isSubscribeFrame_resub]
    simp [resubFrames]

/-- Concrete connector state with one registered consumer, used to
evaluate the two `close` handlers. -/
def c7conn : ConnState := ⟨some true, 3, [], [("housekeeping", [("fs1.eps", 0)])]⟩

/-- C7: the `close` handler of `src/unnamed/part_009` discards only the
physical socket handle and leaves the subscription registry (and the
outbound queue) untouched, as the claim states; the older
`src/mcs/openmct/connector.js` close handler instead wipes
`this.subscriptions` (keeping its socket handle), dropping every
registered consumer — evaluated here at a state with one live
consumer. -/
theorem c7_close_keeps_registry_old_variant_clears_it :
    (∀ s : ConnState, (onClose s).subscriptions = s.subscriptions ∧
      (onClose s).socket = none ∧ (onClose s).queuedFrames = s.queuedFrames) ∧
    (onCloseOld c7conn).subscriptions = [] ∧
    c7conn.subscriptions ≠ [] ∧
    (onCloseOld c7conn).socket = c7conn.socket :=
  ⟨fun _ => ⟨rfl, rfl, rfl⟩, rfl, by decide, rfl⟩

/-- The C8 claim as stated: processing an inbound message never throws
(every message is handled, malformed data and consumer-less pushes being
silently dropped). -/
def c8ClaimNeverThrows : Prop :=
  ∀ (s : ConnState) (m : InMsg), (handleMessage s m).isSome = true

/-- C8 counterexample: a push frame naming a service with no registry
entry at all makes the `message` handler read
`this.subscriptions[service][subsystem]` with an `undefined` bucket and
throw a `TypeError` — it is not silently dropped. -/
theorem c8_counterexample : ¬ c8ClaimNeverThrows := by
  intro h
  exact absurd (h connInit (InMsg.push "tracking" "gs" 5)) (by decide)

/-- C8 amended: malformed inbound data is silently dropped without
crashing; a push for a key with no registered consumer under a service
that has a (possibly empty) registry bucket — e.g. late-arriving data
after unsubscribe, which leaves the empty bucket behind — is silently
dropped; but a push naming a service with no bucket at all throws in the
handler. -/
theorem c8_malformed_and_orphan_push_dropped (s : ConnState) (svc sub : String)
    (p : Nat) (bucket : List (String × Nat)) :
    handleMessage s InMsg.malformed = some (s, []) ∧
    (alookup svc s.subscriptions = some bucket → alookup sub bucket = none →
      handleMessage s (InMsg.push svc sub p) = some (s, [])) ∧
    (alookup svc s.subscriptions = none → handleMessage s (InMsg.push svc sub p) = none) := by
  refine ⟨rfl, ?_, ?_⟩
  · intro h1 h2
    simp [handleMessage, h1, h2]
  · intro h1
    simp [handleMessage, h1]

/-- State in which the last consumer of `fs1.eps` has unsubscribed: the
`housekeeping` bucket stays behind, empty. -/
def c8state : ConnState := ⟨some true, 0, [], [("housekeeping", [])]⟩

/-- Witness for C8 amended: on `c8state`, a late push for the
unsubscribed key is silently dropped. -/
theorem c8_malformed_and_orphan_push_dropped_witness :
    alookup "housekeeping" c8state.subscriptions = some [] ∧
    handleMessage c8state (InMsg.push "housekeeping" "fs1.eps" 7) = some (c8state, []) :=
  ⟨by decide,
   (c8_malformed_and_orphan_push_dropped c8state "housekeeping" "fs1.eps" 7 []).2.1
     (by decide) (by decide)⟩

/-- C10: `Connector.subscribe` stores a single callback per
`(service, key)` — subscribing again for an already-registered key
replaces the stored callback, and a subsequent push for that key is
delivered exactly once, to the most recently registered callback only. -/
theorem c10_subscribe_replaces_callback (s : ConnState) (svc key : String) (c₁ c₂ p : Nat) :
    alookup key ((alookup svc (connSubscribe (connSubscribe s svc key c₁) svc key c₂).subscriptions).getD [])
      = some c₂ ∧
    handleMessage (connSubscribe (connSubscribe s svc key c₁) svc key c₂) (InMsg.push svc key p)
      = some (connSubscribe (connSubscribe s svc key c₁) svc key c₂, [(c₂, p)]) := by
  have hsvc : alookup svc (connSubscribe (connSubscribe s svc key c₁) svc key c₂).subscriptions
      = some (ainsert key c₂ ((alookup svc (connSubscribe s svc key c₁).subscriptions).getD [])) := by
    simp [connSubscribe, alookup_ainsert_self]
  constructor
  · rw [hsvc]
    simp [alookup_ainsert_self]
  · simp [handleMessage, hsvc, alookup_ainsert_self]

/-! ## Request coalescer (`HousekeepingPlugin.js` `request`, lines 214–320)

`request(domainObject, options)` derives `subsKey = satellite + "." +
subsystem` and the grouping identifier `req_ident = subsKey + "_" +
options.strategy`.  The first call for an absent `req_ident` creates the
buffer and schedules the 50 ms flush timer, whose closure captures that
first call's `subsKey` and `options`; every call (first or later) pushes
`{field, options, resolve, reject}` and returns a promise.  The flush
deletes the buffer, issues one `remoteCall("housekeeping", "request",
{subsystem, fields, options})` — forwarding `start`/`end`/`domain`/`size`
of the captured options (`strategy` is commented out) — and on response
resolves each buffered promise with `hk.map(data => {id: subsKey + "." +
field, timestamp, value: data[field]})`, or rejects all of them with the
same error.  Promises are embedded as numeric handles allocated by
`nextHandle`; timestamps as naturals (`new Date(x).getTime()` is
identity here). -/

structure HkOptions where
  strategy : String
  start : Nat
  «end» : Nat
  domain : String
  size : Nat
deriving DecidableEq, Repr

/-- The options object forwarded to the backend by the flush:
`strategy` is not forwarded (commented out in the source). -/
structure SentOptions where
  start : Nat
  «end» : Nat
  domain : String
  size : Nat
deriving DecidableEq, Repr

def sentOf (o : HkOptions) : SentOptions := ⟨o.start, o.«end», o.domain, o.size⟩

/-- One buffered request: its field key, its own options object, and the
handle of the promise returned to its caller. -/
structure Participant where
  field : String
  options : HkOptions
  handle : Nat
deriving DecidableEq, Repr

/-- A coalescing group: the `subsKey` and `options` captured by the flush
timer's closure (those of the creating call) and the buffered
participants. -/
structure Group where
  subsKey : String
  options : HkOptions
  parts : List Participant
deriving DecidableEq, Repr

/-- One outbound `remoteCall("housekeeping", "request", …)` issued by a
flush. -/
structure RpcCallRec where
  service : String
  method : String
  subsystem : String
  fields : List String
  options : SentOptions
deriving DecidableEq, Repr

/-- One row of the backend's `response.result.housekeeping` array. -/
structure Row where
  timestamp : Nat
  data : List (String × Nat)
deriving DecidableEq, Repr

/-- One datum passed to OpenMCT for a single field (`data[field]` may be
absent, hence the `Option`). -/
structure Unrolled where
  id : String
  timestamp : Nat
  value : Option Nat
deriving DecidableEq, Repr

inductive HkOutcome
  | ok (vals : List Unrolled)
  | err (reason : String)
deriving DecidableEq, Repr

/-- A flushed call whose response has not arrived: the continuation holds
the captured `subsKey` and the participant list. -/
structure Inflight where
  subsKey : String
  parts : List Participant
deriving DecidableEq, Repr

structure HkState where
  nextHandle : Nat
  buffered : List (String × Group)
  inflight : List Inflight
  rpcLog : List RpcCallRec
  settled : List (Nat × HkOutcome)
deriving DecidableEq, Repr

def hkInit : HkState := ⟨0, [], [], [], []⟩

def subsKeyOf (satellite subsystem : String) : String :=
  (satellite ++ ".") ++ subsystem

def identOf (satellite subsystem : String) (o : HkOptions) : String :=
  (subsKeyOf satellite subsystem ++ "_") ++ o.strategy

/-- The per-participant slice of a grouped response:
`hk.map(data => ({id: subsKey + "." + field, timestamp, value: data[field]}))`. -/
def slice (subsKey : String) (hk : List Row) (fld : String) : List Unrolled :=
  hk.map (fun row => ⟨(subsKey ++ ".") ++ fld, row.timestamp, alookup fld row.data⟩)

/-- Event-loop tasks touching the coalescer: a `request` call, a flush
timer firing for a grouping identifier, and the response (success or
failure) for the `n`-th issued in-flight call. -/
inductive HkEvent
  | req (satellite subsystem fld : String) (options : HkOptions)
  | flush (ident : String)
  | respondOk (n : Nat) (hk : List Row)
  | respondErr (n : Nat) (reason : String)
deriving DecidableEq, Repr

def hkStep (s : HkState) : HkEvent → HkState
  | .req sat sub fld o =>
      let key := subsKeyOf sat sub
      let ident := identOf sat sub o
      let p : Participant := ⟨fld, o, s.nextHandle⟩
      match alookup ident s.buffered with
      | none =>
          { s with nextHandle := s.nextHandle + 1,
                   buffered := ainsert ident ⟨key, o, [p]⟩ s.buffered }
      | some g =>
          { s with nextHandle := s.nextHandle + 1,
                   buffered := ainsert ident { g with parts := g.parts ++ [p] } s.buffered }
  | .flush ident =>
      match alookup ident s.buffered with
      | none => s
      | some g =>
          { s with buffered := aerase ident s.buffered,
                   rpcLog := s.rpcLog ++
                     [⟨"housekeeping", "request", g.subsKey,
                       g.parts.map Participant.field, sentOf g.options⟩],
                   inflight := s.inflight ++ [⟨g.subsKey, g.parts⟩] }
  | .respondOk n hk =>
      match s.inflight.get? n with
      | none => s
      | some c =>
          { s with inflight := s.inflight.eraseIdx n,
                   settled := s.settled ++
                     c.parts.map (fun p => (p.handle, HkOutcome.ok (slice c.subsKey hk p.field))) }
  | .respondErr n reason =>
      match s.inflight.get? n with
      | none => s
      | some c =>
          { s with inflight := s.inflight.eraseIdx n,
                   settled := s.settled ++ c.parts.map (fun p => (p.handle, HkOutcome.err reason)) }

def hkRun (s : HkState) (es : List HkEvent) : HkState := es.foldl hkStep s

theorem get?_append_length {α : Type} (l : List α) (a : α) :
    (l ++ [a]).get? l.length = some a := by
  induction l with
  | nil => rfl
  | cons x rest ih => simp [ih]

theorem alookup_aerase_of_ne {κ α : Type} [DecidableEq κ] {j k : κ}
    (l : List (κ × α)) (h : j ≠ k) : alookup j (aerase k l) = alookup j l := by
  induction l with
  | nil => rfl
  | cons e rest ih =>
    by_cases he : e.1 = k
    · simp [aerase, alookup, he, Ne.symm h]
    · by_cases hj : e.1 = j
      · simp [aerase, alookup, he, hj, h]
      · simp [aerase, alookup, he, hj, ih]

theorem string_append_left_cancel {a b c : String} (h : a ++ b = a ++ c) : b = c := by
  have hd : a.data ++ b.data = a.data ++ c.data := congrArg String.data h
  have hbc : b.data = c.data := List.append_cancel_left hd
  cases b with
  | mk db => cases c with
    | mk dc => exact congrArg String.mk hbc

/-- C1: two `request` calls inside the coalescing window with the same
grouping identifier produce exactly one outbound RPC call, carrying both
participants' field keys and the shared (first caller's) options; on
success each participant's handle is resolved with only its own field's
slice of the single result, and on failure both handles are rejected
with the same error. -/
theorem c1_coalesced_requests_share_one_rpc (s : HkState)
    (satA subA fA : String) (oA : HkOptions) (satB subB fB : String) (oB : HkOptions)
    (hk : List Row) (reason : String)
    (hid : identOf satA subA oA = identOf satB subB oB)
    (habs : alookup (identOf satA subA oA) s.buffered = none) :
    (hkRun s [HkEvent.req satA subA fA oA, HkEvent.req satB subB fB oB,
        HkEvent.flush (identOf satA subA oA)]).rpcLog =
      s.rpcLog ++ [⟨"housekeeping", "request", subsKeyOf satA subA, [fA, fB], sentOf oA⟩] ∧
    (hkStep (hkRun s [HkEvent.req satA subA fA oA, HkEvent.req satB subB fB oB,
        HkEvent.flush (identOf satA subA oA)]) (HkEvent.respondOk s.inflight.length hk)).settled =
      s.settled ++ [(s.nextHandle, HkOutcome.ok (slice (subsKeyOf satA subA) hk fA)),
                    (s.nextHandle + 1, HkOutcome.ok (slice (subsKeyOf satA subA) hk fB))] ∧
    (hkStep (hkRun s [HkEvent.req satA subA fA oA, HkEvent.req satB subB fB oB,
        HkEvent.flush (identOf satA subA oA)]) (HkEvent.respondErr s.inflight.length reason)).settled =
      s.settled ++ [(s.nextHandle, HkOutcome.err reason),
                    (s.nextHandle + 1, HkOutcome.err reason)] := by
  have h1 : hkStep s (HkEvent.req satA subA fA oA) =
      { s with nextHandle := s.nextHandle + 1,
               buffered := ainsert (identOf satA subA oA)
                 ⟨subsKeyOf satA subA, oA, [⟨fA, oA, s.nextHandle⟩]⟩ s.buffered } := by
    simp [hkStep, habs]
  have h2 : hkStep (hkStep s (HkEvent.req satA subA fA oA)) (HkEvent.req satB subB fB oB) =
      { s with nextHandle := s.nextHandle + 1 + 1,
               buffered := ainsert (identOf satA subA oA)
                 ⟨subsKeyOf satA subA, oA,
                  [⟨fA, oA, s.nextHandle⟩, ⟨fB, oB, s.nextHandle + 1⟩]⟩
                 (ainsert (identOf satA subA oA)
                   ⟨subsKeyOf satA subA, oA, [⟨fA, oA, s.nextHandle⟩]⟩ s.buffered) } := by
    rw [h1]
    simp [hkStep, ← hid, alookup_ainsert_self]
  have h3 : hkStep (hkStep (hkStep s (HkEvent.req satA subA fA oA))
      (HkEvent.req satB subB fB oB)) (HkEvent.flush (identOf satA subA oA)) =
      { s with nextHandle := s.nextHandle + 1 + 1,
               buffered := aerase (identOf satA subA oA)
                 (ainsert (identOf satA subA oA)
                   ⟨subsKeyOf satA subA, oA,
                    [⟨fA, oA, s.nextHandle⟩, ⟨fB, oB, s.nextHandle + 1⟩]⟩
                   (ainsert (identOf satA subA oA)
                     ⟨subsKeyOf satA subA, oA, [⟨fA, oA, s.nextHandle⟩]⟩ s.buffered)),
               rpcLog := s.rpcLog ++
                 [⟨"housekeeping", "request", subsKeyOf satA subA, [fA, fB], sentOf oA⟩],
               inflight := s.inflight ++
                 [⟨subsKeyOf satA subA,
                   [⟨fA, oA, s.nextHandle⟩, ⟨fB, oB, s.nextHandle + 1⟩]⟩] } := by
    rw [h2]
    simp [hkStep, alookup_ainsert_self]
  refine ⟨?_, ?_, ?_⟩
  · show (hkStep (hkStep (hkStep s (HkEvent.req satA subA fA oA))
      (HkEvent.req satB subB fB oB)) (HkEvent.flush (identOf satA subA oA))).rpcLog = _
    rw [h3]
  · show (hkStep (hkStep (hkStep (hkStep s (HkEvent.req satA subA fA oA))
      (HkEvent.req satB subB fB oB)) (HkEvent.flush (identOf satA subA oA)))
      (HkEvent.respondOk s.inflight.length hk)).settled = _
    rw [h3]
    simp [hkStep, get?_append_length]
  · show (hkStep (hkStep (hkStep (hkStep s (HkEvent.req satA subA fA oA))
      (HkEvent.req satB subB fB oB)) (HkEvent.flush (identOf satA subA oA)))
      (HkEvent.respondErr s.inflight.length reason)).settled = _
    rw [h3]
    simp [hkStep, get?_append_length]

/-- Witness for C1: two concrete requests for `fs1.eps` fields with the
`minmax` strategy coalesce into one outbound call listing both fields
with the first caller's options. -/
theorem c1_coalesced_requests_share_one_rpc_witness :
    identOf "fs1" "eps" (HkOptions.mk "minmax" 0 10 "utc" 100) =
      identOf "fs1" "eps" (HkOptions.mk "minmax" 3 12 "utc" 100) ∧
    (hkRun hkInit [HkEvent.req "fs1" "eps" "uptime" ⟨"minmax", 0, 10, "utc", 100⟩,
        HkEvent.req "fs1" "eps" "temp" ⟨"minmax", 3, 12, "utc", 100⟩,
        HkEvent.flush (identOf "fs1" "eps" ⟨"minmax", 0, 10, "utc", 100⟩)]).rpcLog =
      hkInit.rpcLog ++ [⟨"housekeeping", "request", subsKeyOf "fs1" "eps",
        ["uptime", "temp"], sentOf ⟨"minmax", 0, 10, "utc", 100⟩⟩] :=
  ⟨by decide,
   (c1_coalesced_requests_share_one_rpc hkInit "fs1" "eps" "uptime"
      ⟨"minmax", 0, 10, "utc", 100⟩ "fs1" "eps" "temp" ⟨"minmax", 3, 12, "utc", 100⟩
      [] "x" (by decide) (by decide)).1⟩

/-- C5: once a group's flush timer has fired the group is gone — its
identifier is no longer buffered even though its RPC is still in flight —
and a later request with the same grouping identifier starts a fresh
singleton group whose own flush issues a second outbound RPC call. -/
theorem c5_flushed_group_never_reused (s : HkState)
    (satA subA fA : String) (oA : HkOptions) (satB subB fB : String) (oB : HkOptions)
    (hid : identOf satA subA oA = identOf satB subB oB)
    (habs : alookup (identOf satA subA oA) s.buffered = none) :
    alookup (identOf satA subA oA)
        (hkRun s [HkEvent.req satA subA fA oA,
          HkEvent.flush (identOf satA subA oA)]).buffered = none ∧
    (hkRun s [HkEvent.req satA subA fA oA, HkEvent.flush (identOf satA subA oA)]).inflight
      = s.inflight ++ [⟨subsKeyOf satA subA, [⟨fA, oA, s.nextHandle⟩]⟩] ∧
    alookup (identOf satA subA oA)
        (hkRun s [HkEvent.req satA subA fA oA, HkEvent.flush (identOf satA subA oA),
          HkEvent.req satB subB fB oB]).buffered
      = some ⟨subsKeyOf satB subB, oB, [⟨fB, oB, s.nextHandle + 1⟩]⟩ ∧
    (hkRun s [HkEvent.req satA subA fA oA, HkEvent.flush (identOf satA subA oA),
        HkEvent.req satB subB fB oB, HkEvent.flush (identOf satA subA oA)]).rpcLog
      = s.rpcLog ++ [⟨"housekeeping", "request", subsKeyOf satA subA, [fA], sentOf oA⟩,
                     ⟨"housekeeping", "request", subsKeyOf satB subB, [fB], sentOf oB⟩] := by
  have h1 : hkStep s (HkEvent.req satA subA fA oA) =
      { s with nextHandle := s.nextHandle + 1,
               buffered := ainsert (identOf satA subA oA)
                 ⟨subsKeyOf satA subA, oA, [⟨fA, oA, s.nextHandle⟩]⟩ s.buffered } := by
    simp [hkStep, habs]
  have hbuf : aerase (identOf satA subA oA)
      (ainsert (identOf satA subA oA)
        (⟨subsKeyOf satA subA, oA, [⟨fA, oA, s.nextHandle⟩]⟩ : Group) s.buffered)
      = s.buffered := by
    rw [ainsert_append_of_none _ habs, aerase_append_of_none _ habs]
  have h2 : hkStep (hkStep s (HkEvent.req satA subA fA oA))
      (HkEvent.flush (identOf satA subA oA)) =
      { s with nextHandle := s.nextHandle + 1,
               buffered := s.buffered,
               rpcLog := s.rpcLog ++
                 [⟨"housekeeping", "request", subsKeyOf satA subA, [fA], sentOf oA⟩],
               inflight := s.inflight ++ [⟨subsKeyOf satA subA, [⟨fA, oA, s.nextHandle⟩]⟩] } := by
    rw [h1]
    simp [hkStep, alookup_ainsert_self, hbuf]
  have h3 : hkStep (hkStep (hkStep s (HkEvent.req satA subA fA oA))
      (HkEvent.flush (identOf satA subA oA))) (HkEvent.req satB subB fB oB) =
      { s with nextHandle := s.nextHandle + 1 + 1,
               buffered := ainsert (identOf satA subA oA)
                 ⟨subsKeyOf satB subB, oB, [⟨fB, oB, s.nextHandle + 1⟩]⟩ s.buffered,
               rpcLog := s.rpcLog ++
                 [⟨"housekeeping", "request", subsKeyOf satA subA, [fA], sentOf oA⟩],
               inflight := s.inflight ++ [⟨subsKeyOf satA subA, [⟨fA, oA, s.nextHandle⟩]⟩] } := by
    rw [h2]
    simp [hkStep, ← hid, habs]
  have h4 : hkStep (hkStep (hkStep (hkStep s (HkEvent.req satA subA fA oA))
      (HkEvent.flush (identOf satA subA oA))) (HkEvent.req satB subB fB oB))
      (HkEvent.flush (identOf satA subA oA)) =
      { s with nextHandle := s.nextHandle + 1 + 1,
               buffered := aerase (identOf satA subA oA)
                 (ainsert (identOf satA subA oA)
                   ⟨subsKeyOf satB subB, oB, [⟨fB, oB, s.nextHandle + 1⟩]⟩ s.buffered),
               rpcLog := s.rpcLog ++
                 [⟨"housekeeping", "request", subsKeyOf satA subA, [fA], sentOf oA⟩,
                  ⟨"housekeeping", "request", subsKeyOf satB subB, [fB], sentOf oB⟩],
               inflight := s.inflight ++
                 [⟨subsKeyOf satA subA, [⟨fA, oA, s.nextHandle⟩]⟩,
                  ⟨subsKeyOf satB subB, [⟨fB, oB, s.nextHandle + 1⟩]⟩] } := by
    rw [h3]
    simp [hkStep, alookup_ainsert_self, List.append_assoc]
  refine ⟨?_, ?_, ?_, ?_⟩
  · show alookup (identOf satA subA oA)
      (hkStep (hkStep s (HkEvent.req satA subA fA oA))
        (HkEvent.flush (identOf satA subA oA))).buffered = none
    rw [h2]
    exact habs
  · show (hkStep (hkStep s (HkEvent.req satA subA fA oA))
      (HkEvent.flush (identOf satA subA oA))).inflight = _
    rw [h2]
  · show alookup (identOf satA subA oA)
      (hkStep (hkStep (hkStep s (HkEvent.req satA subA fA oA))
        (HkEvent.flush (identOf satA subA oA))) (HkEvent.req satB subB fB oB)).buffered = _
    rw [h3]
    exact alookup_ainsert_self _ _ _
  · show (hkStep (hkStep (hkStep (hkStep s (HkEvent.req satA subA fA oA))
      (HkEvent.flush (identOf satA subA oA))) (HkEvent.req satB subB fB oB))
      (HkEvent.flush (identOf satA subA oA))).rpcLog = _
    rw [h4]

/-- Witness for C5: a concrete request, its flush, and a later request
with the same grouping identifier yield two outbound RPC calls. -/
theorem c5_flushed_group_never_reused_witness :
    identOf "fs1" "obc" (HkOptions.mk "latest" 1 5 "utc" 50) =
      identOf "fs1" "obc" (HkOptions.mk "latest" 2 6 "utc" 50) ∧
    (hkRun hkInit [HkEvent.req "fs1" "obc" "mode" ⟨"latest", 1, 5, "utc", 50⟩,
        HkEvent.flush (identOf "fs1" "obc" ⟨"latest", 1, 5, "utc", 50⟩),
        HkEvent.req "fs1" "obc" "boot" ⟨"latest", 2, 6, "utc", 50⟩,
        HkEvent.flush (identOf "fs1" "obc" ⟨"latest", 1, 5, "utc", 50⟩)]).rpcLog
      = hkInit.rpcLog ++
        [⟨"housekeeping", "request", subsKeyOf "fs1" "obc", ["mode"],
          sentOf ⟨"latest", 1, 5, "utc", 50⟩⟩,
         ⟨"housekeeping", "request", subsKeyOf "fs1" "obc", ["boot"],
          sentOf ⟨"latest", 2, 6, "utc", 50⟩⟩] :=
  ⟨by decide,
   (c5_flushed_group_never_reused hkInit "fs1" "obc" "mode" ⟨"latest", 1, 5, "utc", 50⟩
      "fs1" "obc" "boot" ⟨"latest", 2, 6, "utc", 50⟩ (by decide) (by decide)).2.2.2⟩

/-- The option-compatibility half of C9 as stated: participants are only
ever buffered into a group whose shared flush options agree with their
own (no silent merge of incompatible options). -/
def noSilentOptionMerge : Prop :=
  ∀ (es : List HkEvent) (k : String) (g : Group),
    alookup k (hkRun hkInit es).buffered = some g →
    ∀ p ∈ g.parts, p.options = g.options

/-- C9 counterexample: two requests for the same subsystem and strategy
but different time ranges land in one group, which will be flushed with
the first caller's options only — the second request's options are
silently discarded. -/
theorem c9_counterexample : ¬ noSilentOptionMerge := by
  intro h
  have h2 := h [HkEvent.req "fs1" "eps" "temp" ⟨"minmax", 0, 10, "utc", 100⟩,
                HkEvent.req "fs1" "eps" "volt" ⟨"minmax", 50, 60, "utc", 100⟩]
    (identOf "fs1" "eps" ⟨"minmax", 0, 10, "utc", 100⟩)
    ⟨subsKeyOf "fs1" "eps", ⟨"minmax", 0, 10, "utc", 100⟩,
     [⟨"temp", ⟨"minmax", 0, 10, "utc", 100⟩, 0⟩, ⟨"volt", ⟨"minmax", 50, 60, "utc", 100⟩, 1⟩]⟩
    (by decide) ⟨"volt", ⟨"minmax", 50, 60, "utc", 100⟩, 1⟩ (by decide)
  exact absurd h2 (by decide)

/-- C9 amended: requests are grouped by the string
`subsKey + "_" + strategy` — same subsystem with different strategies
never shares a grouping identifier, and requests whose identifiers differ
are flushed as two separate outbound calls; but the options are not part
of the identifier: two requests differing only in options are batched
into a single call carrying the first participant's options. -/
theorem c9_grouping_key_distinguishes_strategy_not_options (s : HkState)
    (satA subA fA : String) (oA : HkOptions) (satB subB fB : String) (oB : HkOptions) :
    (oA.strategy ≠ oB.strategy → identOf satA subA oA ≠ identOf satA subA oB) ∧
    (identOf satA subA oA ≠ identOf satB subB oB →
      alookup (identOf satA subA oA) s.buffered = none →
      alookup (identOf satB subB oB) s.buffered = none →
      (hkRun s [HkEvent.req satA subA fA oA, HkEvent.req satB subB fB oB,
          HkEvent.flush (identOf satA subA oA), HkEvent.flush (identOf satB subB oB)]).rpcLog
        = s.rpcLog ++ [⟨"housekeeping", "request", subsKeyOf satA subA, [fA], sentOf oA⟩,
                       ⟨"housekeeping", "request", subsKeyOf satB subB, [fB], sentOf oB⟩]) ∧
    (identOf satA subA oA = identOf satB subB oB →
      alookup (identOf satA subA oA) s.buffered = none →
      (hkRun s [HkEvent.req satA subA fA oA, HkEvent.req satB subB fB oB,
          HkEvent.flush (identOf satA subA oA)]).rpcLog
        = s.rpcLog ++
          [⟨"housekeeping", "request", subsKeyOf satA subA, [fA, fB], sentOf oA⟩]) := by
  refine ⟨?_, ?_, ?_⟩
  · intro hne heq
    apply hne
    simp only [identOf] at heq
    exact string_append_left_cancel heq
  · intro hne habsA habsB
    have h1 : hkStep s (HkEvent.req satA subA fA oA) =
        { s with nextHandle := s.nextHandle + 1,
                 buffered := ainsert (identOf satA subA oA)
                   ⟨subsKeyOf satA subA, oA, [⟨fA, oA, s.nextHandle⟩]⟩ s.buffered } := by
      simp [hkStep, habsA]
    have h2 : hkStep (hkStep s (HkEvent.req satA subA fA oA)) (HkEvent.req satB subB fB oB) =
        { s with nextHandle := s.nextHandle + 1 + 1,
                 buffered := ainsert (identOf satB subB oB)
                   ⟨subsKeyOf satB subB, oB, [⟨fB, oB, s.nextHandle + 1⟩]⟩
                   (ainsert (identOf satA subA oA)
                     ⟨subsKeyOf satA subA, oA, [⟨fA, oA, s.nextHandle⟩]⟩ s.buffered) } := by
      rw [h1]
      simp [hkStep, alookup_ainsert_of_ne _ _ (Ne.symm hne), habsB]
    have h3 : hkStep (hkStep (hkStep s (HkEvent.req satA subA fA oA))
        (HkEvent.req satB subB fB oB)) (HkEvent.flush (identOf satA subA oA)) =
        { s with nextHandle := s.nextHandle + 1 + 1,
                 buffered := aerase (identOf satA subA oA)
                   (ainsert (identOf satB subB oB)
                     ⟨subsKeyOf satB subB, oB, [⟨fB, oB, s.nextHandle + 1⟩]⟩
                     (ainsert (identOf satA subA oA)
                       ⟨subsKeyOf satA subA, oA, [⟨fA, oA, s.nextHandle⟩]⟩ s.buffered)),
                 rpcLog := s.rpcLog ++
                   [⟨"housekeeping", "request", subsKeyOf satA subA, [fA], sentOf oA⟩],
                 inflight := s.inflight ++
                   [⟨subsKeyOf satA subA, [⟨fA, oA, s.nextHandle⟩]⟩] } := by
      rw [h2]
      simp [hkStep, alookup_ainsert_of_ne _ _ hne, alookup_ainsert_self]
    have h4 : hkStep (hkStep (hkStep (hkStep s (HkEvent.req satA subA fA oA))
        (HkEvent.req satB subB fB oB)) (HkEvent.flush (identOf satA subA oA)))
        (HkEvent.flush (identOf satB subB oB)) =
        { s with nextHandle := s.nextHandle + 1 + 1,
                 buffered := aerase (identOf satB subB oB)
                   (aerase (identOf satA subA oA)
                     (ainsert (identOf satB subB oB)
                       ⟨subsKeyOf satB subB, oB, [⟨fB, oB, s.nextHandle + 1⟩]⟩
                       (ainsert (identOf satA subA oA)
                         ⟨subsKeyOf satA subA, oA, [⟨fA, oA, s.nextHandle⟩]⟩ s.buffered))),
                 rpcLog := s.rpcLog ++
                   [⟨"housekeeping", "request", subsKeyOf satA subA, [fA], sentOf oA⟩,
                    ⟨"housekeeping", "request", subsKeyOf satB subB, [fB], sentOf oB⟩],
                 inflight := s.inflight ++
                   [⟨subsKeyOf satA subA, [⟨fA, oA, s.nextHandle⟩]⟩,
                    ⟨subsKeyOf satB subB, [⟨fB, oB, s.nextHandle + 1⟩]⟩] } := by
      rw [h3]
      simp [hkStep, alookup_aerase_of_ne _ (Ne.symm hne), alookup_ainsert_self,
        List.append_assoc]
    show (hkStep (hkStep (hkStep (hkStep s (HkEvent.req satA subA fA oA))
        (HkEvent.req satB subB fB oB)) (HkEvent.flush (identOf satA subA oA)))
        (HkEvent.flush (identOf satB subB oB))).rpcLog = _
    rw [h4]
  · intro hid habs
    have h1 : hkStep s (HkEvent.req satA subA fA oA) =
        { s with nextHandle := s.nextHandle + 1,
                 buffered := ainsert (identOf satA subA oA)
                   ⟨subsKeyOf satA subA, oA, [⟨fA, oA, s.nextHandle⟩]⟩ s.buffered } := by
      simp [hkStep, habs]
    have h2 : hkStep (hkStep s (HkEvent.req satA subA fA oA)) (HkEvent.req satB subB fB oB) =
        { s with nextHandle := s.nextHandle + 1 + 1,
                 buffered := ainsert (identOf satA subA oA)
                   ⟨subsKeyOf satA subA, oA,
                    [⟨fA, oA, s.nextHandle⟩, ⟨fB, oB, s.nextHandle + 1⟩]⟩
                   (ainsert (identOf satA subA oA)
                     ⟨subsKeyOf satA subA, oA, [⟨fA, oA, s.nextHandle⟩]⟩ s.buffered) } := by
      rw [h1]
      simp [hkStep, ← hid, alookup_ainsert_self]
    have h3 : hkStep (hkStep (hkStep s (HkEvent.req satA subA fA oA))
        (HkEvent.req satB subB fB oB)) (HkEvent.flush (identOf satA subA oA)) =
        { s with nextHandle := s.nextHandle + 1 + 1,
                 buffered := aerase (identOf satA subA oA)
                   (ainsert (identOf satA subA oA)
                     ⟨subsKeyOf satA subA, oA,
                      [⟨fA, oA, s.nextHandle⟩, ⟨fB, oB, s.nextHandle + 1⟩]⟩
                     (ainsert (identOf satA subA oA)
                       ⟨subsKeyOf satA subA, oA, [⟨fA, oA, s.nextHandle⟩]⟩ s.buffered)),
                 rpcLog := s.rpcLog ++
                   [⟨"housekeeping", "request", subsKeyOf satA subA, [fA, fB], sentOf oA⟩],
                 inflight := s.inflight ++
                   [⟨subsKeyOf satA subA,
                     [⟨fA, oA, s.nextHandle⟩, ⟨fB, oB, s.nextHandle + 1⟩]⟩] } := by
      rw [h2]
      simp [hkStep, alookup_ainsert_self]
    show (hkStep (hkStep (hkStep s (HkEvent.req satA subA fA oA))
        (HkEvent.req satB subB fB oB)) (HkEvent.flush (identOf satA subA oA))).rpcLog = _
    rw [h3]

/-- Witness for C9: two concrete requests with equal subsystem and
strategy but different time ranges are flushed as one call with the
first caller's options. -/
theorem c9_grouping_key_distinguishes_strategy_not_options_witness :
    identOf "fs1" "adcs" (HkOptions.mk "minmax" 0 9 "utc" 20) =
      identOf "fs1" "adcs" (HkOptions.mk "minmax" 90 99 "utc" 20) ∧
    (hkRun hkInit [HkEvent.req "fs1" "adcs" "volt" ⟨"minmax", 0, 9, "utc", 20⟩,
        HkEvent.req "fs1" "adcs" "curr" ⟨"minmax", 90, 99, "utc", 20⟩,
        HkEvent.flush (identOf "fs1" "adcs" ⟨"minmax", 0, 9, "utc", 20⟩)]).rpcLog
      = hkInit.rpcLog ++ [⟨"housekeeping", "request", subsKeyOf "fs1" "adcs",
          ["volt", "curr"], sentOf ⟨"minmax", 0, 9, "utc", 20⟩⟩] :=
  ⟨by decide,
   (c9_grouping_key_distinguishes_strategy_not_options hkInit "fs1" "adcs" "volt"
      ⟨"minmax", 0, 9, "utc", 20⟩ "fs1" "adcs" "curr"
      ⟨"minmax", 90, 99, "utc", 20⟩).2.2 (by decide) (by decide)⟩

/-! ## MeasurementsPlugin request coalescer (C6)

`MeasurementsPlugin.js` `request` (lines 128–188) follows the same
buffering pattern as the housekeeping one, but its `return new
Promise(...)` statement sits *inside* the `if (!(req_ident in
buffered_promises))` block. -/

structure MPart where
  field : String
  handle : Nat
deriving DecidableEq, Repr

structure MmState where
  nextHandle : Nat
  buffered : List (String × List MPart)
deriving DecidableEq, Repr

def mmInit : MmState := ⟨0, []⟩

/-- `MeasurementsPlugin.request`: grouping identifier
`"measurements" + "_" + options.strategy`.  When the identifier is
absent, the code creates the buffer, schedules the 50 ms flush, and —
still inside that `if` block — returns the promise whose executor pushes
`{field, options, promise, reject}`.  When the identifier is already
buffered, control falls off the end of the function: nothing is pushed
and the caller receives `undefined` (embedded as `none`). -/
def mmRequest (s : MmState) (fld strategy : String) : MmState × Option Nat :=
  let ident := ("measurements" ++ "_") ++ strategy
  match alookup ident s.buffered with
  | none =>
      ({ nextHandle := s.nextHandle + 1,
         buffered := ainsert ident [⟨fld, s.nextHandle⟩] s.buffered }, some s.nextHandle)
  | some _ => (s, none)

/-- C6 (bug in `MeasurementsPlugin.js`): the first request of a window
receives a handle, but a second request with the same strategy inside
the window receives no handle at all (`undefined`) and is not added to
the group — its state is left untouched — contradicting the claim that
every invocation returns an awaitable handle and joins the open
group. -/
theorem c6_measurements_second_request_gets_no_handle :
    (mmRequest mmInit "doppler" "minmax").2 = some 0 ∧
    (mmRequest (mmRequest mmInit "doppler" "minmax").1 "snr" "minmax").2 = none ∧
    (mmRequest (mmRequest mmInit "doppler" "minmax").1 "snr" "minmax").1
      = (mmRequest mmInit "doppler" "minmax").1 := by
  decide

/-! ## Subscription registry (C3)

The dedup layer lives in `HousekeepingPlugin.js` `subscribe` (lines
147–197): the plugin keeps `subscriptions[subsKey] = {field: callback}`;
it calls `connector.subscribe("housekeeping", subsKey, …)` only when
`subsKey` had no bucket, and the closure it returns deletes the field
and calls `connector.unsubscribe("housekeeping", subsKey)` only when the
bucket becomes empty.  `Connector.subscribe`/`unsubscribe`
(`src/unnamed/part_009` lines 173–205) send exactly one
subscribe/unsubscribe frame per invocation, so the frames on the wire
are exactly the connector calls made by the plugin. -/

/-- Plugin-level registry: `subsKey -> field -> callback`. -/
abbrev SubReg := List (String × List (String × Nat))

/-- A consumer action on the plugin: a `subscribe` for a data point
(its `subsKey` and field, with the callback identity) or an invocation
of the returned `unsubscribe` closure. -/
inductive SubEvent
  | sub (key fld : String) (cb : Nat)
  | unsub (key fld : String)
deriving DecidableEq, Repr

/-- A subscribe or unsubscribe frame sent to the backend for a
`subsKey`. -/
inductive SFrame
  | subF (key : String)
  | unsubF (key : String)
deriving DecidableEq, Repr

/-- One plugin call: returns the new registry and the frames sent. -/
def subStep (s : SubReg) : SubEvent → SubReg × List SFrame
  | .sub k f c =>
      match alookup k s with
      | none => (ainsert k (ainsert f c []) s, [SFrame.subF k])
      | some b => (ainsert k (ainsert f c b) s, [])
  | .unsub k f =>
      match alookup k s with
      | none => (s, [])
      | some b =>
          let b2 := aerase f b
          if b2 = [] then (aerase k s, [SFrame.unsubF k])
          else (ainsert k b2 s, [])

def subRun (s : SubReg) : List SubEvent → SubReg × List SFrame
  | [] => (s, [])
  | e :: es =>
      let r := subStep s e
      let r2 := subRun r.1 es
      (r2.1, r.2 ++ r2.2)

/-- The consumer set currently registered for a `subsKey`. -/
def consumers (s : SubReg) (k : String) : List (String × Nat) := (alookup k s).getD []

/-- A sequence of consumer actions is valid when every `unsubscribe`
closure is invoked while its field is still registered (invoking a stale
closure would throw in the JS, since the bucket is gone). -/
def validB (s : SubReg) : List SubEvent → Bool
  | [] => true
  | SubEvent.sub k f c :: es => validB (subStep s (SubEvent.sub k f c)).1 es
  | SubEvent.unsub k f :: es =>
      (match alookup k s with
       | none => false
       | some b => (alookup f b).isSome) && validB (subStep s (SubEvent.unsub k f)).1 es

/-- Number of transitions of `k`'s consumer set from empty to non-empty
along a trace. -/
def e2n (k : String) (s : SubReg) : List SubEvent → Nat
  | [] => 0
  | e :: es =>
      (if consumers s k = [] ∧ consumers (subStep s e).1 k ≠ [] then 1 else 0) +
        e2n k (subStep s e).1 es

/-- Number of transitions of `k`'s consumer set from non-empty to empty
along a trace. -/
def n2e (k : String) (s : SubReg) : List SubEvent → Nat
  | [] => 0
  | e :: es =>
      (if consumers s k ≠ [] ∧ consumers (subStep s e).1 k = [] then 1 else 0) +
        n2e k (subStep s e).1 es

def countF (f : SFrame) (l : List SFrame) : Nat := (l.filter (fun x => x = f)).length

theorem countF_append (f : SFrame) (l m : List SFrame) :
    countF f (l ++ m) = countF f l + countF f m := by
  simp [countF, List.filter_append]

/-- Registry invariant: `subsKey`s are unique, every bucket is non-empty
(it is removed as soon as it empties), and field keys inside a bucket are
unique. -/
def SubInv (s : SubReg) : Prop :=
  (s.map Prod.fst).Nodup ∧ ∀ e ∈ s, e.2 ≠ [] ∧ (e.2.map Prod.fst).Nodup

theorem alookup_eq_none_iff {κ α : Type} [DecidableEq κ] (k : κ) (l : List (κ × α)) :
    alookup k l = none ↔ k ∉ l.map Prod.fst := by
  induction l with
  | nil => simp [alookup]
  | cons e rest ih =>
    by_cases he : e.1 = k
    · simp [alookup, he]
    · simp [alookup, he, ih, Ne.symm he]

theorem mem_of_alookup_eq_some {κ α : Type} [DecidableEq κ] {k : κ} {v : α}
    {l : List (κ × α)} (h : alookup k l = some v) : (k, v) ∈ l := by
  induction l with
  | nil => simp [alookup] at h
  | cons e rest ih =>
    rcases e with ⟨a, b⟩
    by_cases he : a = k
    · subst he
      simp [alookup] at h
      subst h
      exact List.mem_cons_self _ _
    · simp [alookup, he] at h
      exact List.mem_cons_of_mem _ (ih h)

theorem mem_ainsert {κ α : Type} [DecidableEq κ] {k : κ} {v : α} {l : List (κ × α)}
    {x : κ × α} (hx : x ∈ ainsert k v l) : x = (k, v) ∨ x ∈ l := by
  induction l with
  | nil =>
    simp [ainsert] at hx
    exact Or.inl hx
  | cons e rest ih =>
    by_cases he : e.1 = k
    · simp [ainsert, he] at hx
      rcases hx with h1 | h1
      · exact Or.inl h1
      · exact Or.inr (List.mem_cons_of_mem _ h1)
    · simp [ainsert, he] at hx
      rcases hx with h1 | h1
      · exact Or.inr (by simp [h1])
      · rcases ih h1 with h2 | h2
        · exact Or.inl h2
        · exact Or.inr (List.mem_cons_of_mem _ h2)

theorem aerase_sublist {κ α : Type} [DecidableEq κ] (k : κ) (l : List (κ × α)) :
    (aerase k l).Sublist l := by
  induction l with
  | nil => simp [aerase]
  | cons e rest ih =>
    by_cases he : e.1 = k
    · have hr : aerase k (e :: rest) = rest := by simp [aerase, he]
      rw [hr]
      exact List.Sublist.cons e (List.Sublist.refl rest)
    · have hr : aerase k (e :: rest) = e :: aerase k rest := by simp [aerase, he]
      rw [hr]
      exact List.Sublist.cons₂ e ih

theorem map_fst_ainsert_of_isSome {κ α : Type} [DecidableEq κ] {k : κ} (v : α)
    {l : List (κ × α)} (h : (alookup k l).isSome) :
    (ainsert k v l).map Prod.fst = l.map Prod.fst := by
  induction l with
  | nil => simp [alookup] at h
  | cons e rest ih =>
    by_cases he : e.1 = k
    · simp [ainsert, he]
    · simp [alookup, he] at h
      simp [ainsert, he, ih h]

theorem nodup_keys_ainsert {κ α : Type} [DecidableEq κ] (k : κ) (v : α)
    {l : List (κ × α)} (h : (l.map Prod.fst).Nodup) :
    ((ainsert k v l).map Prod.fst).Nodup := by
  cases hl : alookup k l with
  | some w =>
    rw [map_fst_ainsert_of_isSome v (by simp [hl])]
    exact h
  | none =>
    rw [ainsert_append_of_none v hl]
    have hk := (alookup_eq_none_iff k l).mp hl
    simp [List.nodup_append, h, hk]

theorem alookup_aerase_self_of_nodup {κ α : Type} [DecidableEq κ] {k : κ}
    {l : List (κ × α)} (h : (l.map Prod.fst).Nodup) : alookup k (aerase k l) = none := by
  induction l with
  | nil => rfl
  | cons e rest ih =>
    have h2 : (e.1 :: rest.map Prod.fst).Nodup := by
      rw [← List.map_cons]
      exact h
    have hn := List.nodup_cons.mp h2
    by_cases he : e.1 = k
    · have hr : aerase k (e :: rest) = rest := by simp [aerase, he]
      rw [hr]
      exact (alookup_eq_none_iff k rest).mpr (he ▸ hn.1)
    · have hr : aerase k (e :: rest) = e :: aerase k rest := by simp [aerase, he]
      rw [hr]
      simp [alookup, he, ih hn.2]

theorem countF_nil (x : SFrame) : countF x [] = 0 := rfl

theorem countF_single_eq (x : SFrame) : countF x [x] = 1 := by
  simp [countF]

theorem countF_single_ne {x y : SFrame} (h : y ≠ x) : countF x [y] = 0 := by
  simp [countF, h]

theorem countF_cons_self (x : SFrame) (l : List SFrame) :
    countF x (x :: l) = 1 + countF x l := by
  simp [countF, List.filter_cons, Nat.add_comm]

theorem countF_cons_ne {x y : SFrame} (h : y ≠ x) (l : List SFrame) :
    countF x (y :: l) = countF x l := by
  simp [countF, List.filter_cons, h]

/-- Core lemma for C3: over any valid action sequence, the subscribe
frames sent for a key equal its empty-to-non-empty transitions and the
unsubscribe frames its non-empty-to-empty transitions. -/
theorem subRun_frames_eq_transitions (k : String) (es : List SubEvent) :
    ∀ (s : SubReg), SubInv s → validB s es = true →
      countF (SFrame.subF k) (subRun s es).2 = e2n k s es ∧
      countF (SFrame.unsubF k) (subRun s es).2 = n2e k s es := by
  induction es with
  | nil =>
    intro s _ _
    exact ⟨rfl, rfl⟩
  | cons e es ih =>
    intro s hinv hval
    obtain ⟨hkeys, hent⟩ := hinv
    cases e with
    | sub k2 f c =>
      have hval2 : validB (subStep s (SubEvent.sub k2 f c)).1 es = true := hval
      cases hb : alookup k2 s with
      | none =>
        have hstep : subStep s (SubEvent.sub k2 f c) =
            (ainsert k2 (ainsert f c []) s, [SFrame.subF k2]) := by
          simp [subStep, hb]
        have hinv2 : SubInv (ainsert k2 (ainsert f c []) s) := by
          refine ⟨nodup_keys_ainsert k2 _ hkeys, ?_⟩
          intro x hx
          rcases mem_ainsert hx with h1 | h1
          · rw [h1]
            exact ⟨by simp [ainsert], by simp [ainsert]⟩
          · exact hent x h1
        have hrest := ih _ hinv2 (by rw [hstep] at hval2; exact hval2)
        by_cases hk : k2 = k
        · subst hk
          have hc1 : consumers s k2 = [] := by simp [consumers, hb]
          have hc2 : consumers (ainsert k2 (ainsert f c []) s) k2 = [(f, c)] := by
            simp [consumers, alookup_ainsert_self, ainsert]
          constructor
          · simp [subRun, e2n, countF_append, hstep, hc1, hc2, hrest.1, countF_cons_self]
          · simp [subRun, n2e, countF_append, hstep, hc1, hc2, hrest.2,
              countF_cons_ne (show SFrame.subF k2 ≠ SFrame.unsubF k2 by simp)]
        · have hceq : consumers (ainsert k2 (ainsert f c []) s) k = consumers s k := by
            simp [consumers, alookup_ainsert_of_ne _ _ (Ne.symm hk)]
          constructor
          · simp [subRun, e2n, countF_append, hstep, hceq, hrest.1,
              countF_cons_ne (show SFrame.subF k2 ≠ SFrame.subF k by simp [hk])]
          · simp [subRun, n2e, countF_append, hstep, hceq, hrest.2,
              countF_cons_ne (show SFrame.subF k2 ≠ SFrame.unsubF k by simp)]
      | some b =>
        obtain ⟨hbne, hbnodup⟩ := hent _ (mem_of_alookup_eq_some hb)
        have hstep : subStep s (SubEvent.sub k2 f c) =
            (ainsert k2 (ainsert f c b) s, []) := by
          simp [subStep, hb]
        have hinv2 : SubInv (ainsert k2 (ainsert f c b) s) := by
          refine ⟨nodup_keys_ainsert k2 _ hkeys, ?_⟩
          intro x hx
          rcases mem_ainsert hx with h1 | h1
          · rw [h1]
            exact ⟨ainsert_ne_nil f c b, nodup_keys_ainsert f c hbnodup⟩
          · exact hent x h1
        have hrest := ih _ hinv2 (by rw [hstep] at hval2; exact hval2)
        by_cases hk : k2 = k
        · subst hk
          have hc1 : consumers s k2 = b := by simp [consumers, hb]
          have hc2 : consumers (ainsert k2 (ainsert f c b) s) k2 = ainsert f c b := by
            simp [consumers, alookup_ainsert_self]
          constructor
          · simp [subRun, e2n, countF_append, hstep, hc1, hc2, hrest.1, hbne, countF_nil]
          · simp [subRun, n2e, countF_append, hstep, hc1, hc2, hrest.2,
              ainsert_ne_nil f c b, countF_nil]
        · have hceq : consumers (ainsert k2 (ainsert f c b) s) k = consumers s k := by
            simp [consumers, alookup_ainsert_of_ne _ _ (Ne.symm hk)]
          constructor
          · simp [subRun, e2n, countF_append, hstep, hceq, hrest.1, countF_nil]
          · simp [subRun, n2e, countF_append, hstep, hceq, hrest.2, countF_nil]
    | unsub k2 f =>
      have hval' : ((match alookup k2 s with
          | none => false
          | some b => (alookup f b).isSome) &&
            validB (subStep s (SubEvent.unsub k2 f)).1 es) = true := hval
      cases hb : alookup k2 s with
      | none =>
        rw [hb] at hval'
        simp at hval'
      | some b =>
        rw [hb] at hval'
        simp only [Bool.and_eq_true] at hval'
        obtain ⟨hf, hval2⟩ := hval'
        obtain ⟨hbne, hbnodup⟩ := hent _ (mem_of_alookup_eq_some hb)
        by_cases hb2 : aerase f b = []
        · have hstep : subStep s (SubEvent.unsub k2 f) =
              (aerase k2 s, [SFrame.unsubF k2]) := by
            simp [subStep, hb, hb2]
          have hinv2 : SubInv (aerase k2 s) := by
            refine ⟨List.Nodup.sublist (List.Sublist.map Prod.fst (aerase_sublist k2 s)) hkeys, ?_⟩
            intro x hx
            exact hent x ((aerase_sublist k2 s).subset hx)
          have hrest := ih _ hinv2 (by rw [hstep] at hval2; exact hval2)
          by_cases hk : k2 = k
          · subst hk
            have hc1 : consumers s k2 = b := by simp [consumers, hb]
            have hc2 : consumers (aerase k2 s) k2 = [] := by
              simp [consumers, alookup_aerase_self_of_nodup hkeys]
            constructor
            · simp [subRun, e2n, countF_append, hstep, hc1, hc2, hrest.1, hbne,
                countF_cons_ne (show SFrame.unsubF k2 ≠ SFrame.subF k2 by simp)]
            · simp [subRun, n2e, countF_append, hstep, hc1, hc2, hrest.2, hbne,
                countF_cons_self]
          · have hceq : consumers (aerase k2 s) k = consumers s k := by
              simp [consumers, alookup_aerase_of_ne _ (Ne.symm hk)]
            constructor
            · simp [subRun, e2n, countF_append, hstep, hceq, hrest.1,
                countF_cons_ne (show SFrame.unsubF k2 ≠ SFrame.subF k by simp)]
            · simp [subRun, n2e, countF_append, hstep, hceq, hrest.2,
                countF_cons_ne (show SFrame.unsubF k2 ≠ SFrame.unsubF k by simp [hk])]
        · have hstep : subStep s (SubEvent.unsub k2 f) =
              (ainsert k2 (aerase f b) s, []) := by
            simp [subStep, hb, hb2]
          have hinv2 : SubInv (ainsert k2 (aerase f b) s) := by
            refine ⟨nodup_keys_ainsert k2 _ hkeys, ?_⟩
            intro x hx
            rcases mem_ainsert hx with h1 | h1
            · rw [h1]
              exact ⟨hb2,
                List.Nodup.sublist (List.Sublist.map Prod.fst (aerase_sublist f b)) hbnodup⟩
            · exact hent x h1
          have hrest := ih _ hinv2 (by rw [hstep] at hval2; exact hval2)
          by_cases hk : k2 = k
          · subst hk
            have hc1 : consumers s k2 = b := by simp [consumers, hb]
            have hc2 : consumers (ainsert k2 (aerase f b) s) k2 = aerase f b := by
              simp [consumers, alookup_ainsert_self]
            constructor
            · simp [subRun, e2n, countF_append, hstep, hc1, hc2, hrest.1, hbne, countF_nil]
            · simp [subRun, n2e, countF_append, hstep, hc1, hc2, hrest.2, hb2, countF_nil]
          · have hceq : consumers (ainsert k2 (aerase f b) s) k = consumers s k := by
              simp [consumers, alookup_ainsert_of_ne _ _ (Ne.symm hk)]
            constructor
            · simp [subRun, e2n, countF_append, hstep, hceq, hrest.1, countF_nil]
            · simp [subRun, n2e, countF_append, hstep, hceq, hrest.2, countF_nil]

/-- C3: for every valid sequence of subscribe/unsubscribe calls by
consumers, per key, the number of subscribe frames sent to the backend
equals the number of transitions of that key's consumer set from empty
to non-empty, and the number of unsubscribe frames equals the
transitions from non-empty to empty. -/
theorem c3_subscribe_frames_match_transitions (es : List SubEvent) (k : String)
    (hval : validB [] es = true) :
    countF (SFrame.subF k) (subRun [] es).2 = e2n k [] es ∧
    countF (SFrame.unsubF k) (subRun [] es).2 = n2e k [] es :=
  subRun_frames_eq_transitions k es [] ⟨List.nodup_nil, by simp⟩ hval

/-- The spec's scenario: consumers A and B subscribe to `fs1.eps` (fields
`temp` and `volt`), then B detaches, then A detaches. -/
def c3scenario : List SubEvent :=
  [SubEvent.sub "fs1.eps" "temp" 0, SubEvent.sub "fs1.eps" "volt" 1,
   SubEvent.unsub "fs1.eps" "volt", SubEvent.unsub "fs1.eps" "temp"]

/-- Witness for C3 on the spec's scenario: exactly one subscribe frame in
total, no unsubscribe frame while B detaches first, one unsubscribe frame
once A (the last consumer) detaches. -/
theorem c3_subscribe_frames_match_transitions_witness :
    validB [] c3scenario = true ∧
    (countF (SFrame.subF "fs1.eps") (subRun [] c3scenario).2 = e2n "fs1.eps" [] c3scenario ∧
     countF (SFrame.unsubF "fs1.eps") (subRun [] c3scenario).2 = n2e "fs1.eps" [] c3scenario) ∧
    countF (SFrame.subF "fs1.eps") (subRun [] c3scenario).2 = 1 ∧
    countF (SFrame.unsubF "fs1.eps") (subRun [] (c3scenario.take 3)).2 = 0 ∧
    countF (SFrame.unsubF "fs1.eps") (subRun [] c3scenario).2 = 1 :=
  ⟨by decide, c3_subscribe_frames_match_transitions c3scenario "fs1.eps" (by decide),
   by decide, by decide, by decide⟩

end Porthouse
